import Mathlib

/-!
Verification of the `flask_backend/account_sql.py` account store.

The Python module is shallowly embedded below:

* timestamps (`datetime.strptime` with format `"%Y-%m-%d %H:%M:%S"` and
  `datetime` comparison) become the `DateTime` structure, the `strptime`
  parser, and the lexicographic order `DateTime.ltb`;
* the sqlite `account` table becomes the `AccountSQL` structure: the list
  of rows in insertion (rowid) order plus the AUTOINCREMENT counter;
* each raised exception becomes a constructor of `Err`; the human-readable
  messages carried by the Python exceptions are elided, the constructor
  alone identifies the exception class;
* `get_hex_sha` (the SHA-256 hex digest of a UTF-8 string) is kept as an
  explicit function parameter of the operations that use it: no claim
  depends on concrete digest values, only on how the store uses them;
* every method that holds the database connection returns a pair
  `result × AccountSQL`, the second component being the table contents
  after the call, so read-only behaviour is a provable statement rather
  than a modelling assumption;
* `datetime.now()` becomes an explicit `now : DateTime` argument of
  `verify_time` and of the operations that call it.
-/

/-! ## Timestamps: `datetime.strptime` and `datetime` comparison -/

/-- A parsed naive timestamp, the fields `datetime` compares (microseconds
are always zero for the `"%Y-%m-%d %H:%M:%S"` format and are omitted). -/
structure DateTime where
  year : Nat
  month : Nat
  day : Nat
  hour : Nat
  minute : Nat
  second : Nat
deriving DecidableEq, Repr

/-- Python `datetime` comparison: lexicographic on
(year, month, day, hour, minute, second). -/
def DateTime.ltb (a b : DateTime) : Bool :=
  if a.year ≠ b.year then decide (a.year < b.year)
  else if a.month ≠ b.month then decide (a.month < b.month)
  else if a.day ≠ b.day then decide (a.day < b.day)
  else if a.hour ≠ b.hour then decide (a.hour < b.hour)
  else if a.minute ≠ b.minute then decide (a.minute < b.minute)
  else decide (a.second < b.second)

/-- Gregorian leap-year rule used by `datetime`'s calendar validation. -/
def isLeap (y : Nat) : Bool :=
  (y % 4 == 0 && y % 100 != 0) || y % 400 == 0

/-- Days in a month, as validated by the `datetime` constructor. -/
def daysInMonth (y m : Nat) : Nat :=
  if m = 2 then (if isLeap y then 29 else 28)
  else if m = 4 ∨ m = 6 ∨ m = 9 ∨ m = 11 then 30
  else 31

/-- Value of an ASCII digit character, `none` otherwise. -/
def digitVal (c : Char) : Option Nat :=
  if c.isDigit then some (c.toNat - 48) else none

/-- `%Y` in CPython `_strptime`: exactly four digits. -/
def parseYear : List Char → Option (Nat × List Char)
  | a :: b :: c :: d :: rest => do
    let x ← digitVal a
    let y ← digitVal b
    let z ← digitVal c
    let w ← digitVal d
    pure (((x * 10 + y) * 10 + z) * 10 + w, rest)
  | _ => none

/-- A one- or two-digit numeric field (`%m`, `%d`, `%H`, `%M`, `%S`): the
CPython field regexes prefer the two-digit alternative, and since a field
is always followed by a non-digit (separator or end of input) the greedy
choice is equivalent; out-of-range values are rejected by the range checks
in `strptime` below, which subsume the per-field regex alternatives. -/
def parseField : List Char → Option (Nat × List Char)
  | a :: b :: rest =>
    match digitVal a, digitVal b with
    | some x, some y => some (x * 10 + y, rest)
    | some x, none => some (x, b :: rest)
    | none, _ => none
  | [a] => (digitVal a).map (fun x => (x, []))
  | [] => none

/-- A literal non-whitespace character of the format string. -/
def expectChar (c : Char) : List Char → Option (List Char)
  | a :: rest => if a = c then some rest else none
  | [] => none

/-- A whitespace character of the format string: CPython `_strptime`
rewrites it to the regex `\s+`, one or more whitespace characters. -/
def expectSpace : List Char → Option (List Char)
  | a :: rest => if a.isWhitespace then some (rest.dropWhile Char.isWhitespace) else none
  | [] => none

/-- `datetime.strptime(s, "%Y-%m-%d %H:%M:%S")`: parse the six fields with
their separators, require the whole string to be consumed, and validate
the ranges the field regexes and the `datetime` constructor enforce
(`MINYEAR = 1`; calendar-valid day). `none` models the raised
`ValueError`. (`\d` is modelled on ASCII digits.) -/
def strptime (s : String) : Option DateTime := do
  let cs := s.toList
  let (y, cs) ← parseYear cs
  let cs ← expectChar (Char.ofNat 45) cs
  let (mo, cs) ← parseField cs
  let cs ← expectChar (Char.ofNat 45) cs
  let (d, cs) ← parseField cs
  let cs ← expectSpace cs
  let (h, cs) ← parseField cs
  let cs ← expectChar (Char.ofNat 58) cs
  let (mi, cs) ← parseField cs
  let cs ← expectChar (Char.ofNat 58) cs
  let (sec, cs) ← parseField cs
  if cs = [] ∧ 1 ≤ y ∧ 1 ≤ mo ∧ mo ≤ 12 ∧ 1 ≤ d ∧ d ≤ daysInMonth y mo ∧
      h ≤ 23 ∧ mi ≤ 59 ∧ sec ≤ 59 then
    pure ⟨y, mo, d, h, mi, sec⟩
  else none

/-! ## Exceptions -/

/-- The exception classes of `utils/exceptions.py`, plus the two built-in
Python exceptions the module can raise: `ValueError` from `strptime` on a
malformed timestamp, and `TypeError` from subscripting the `None` that
`fetchone()` returns when no row matches. -/
inductive Err where
  | DuplicateValueError : Err
  | PasswordError : Err
  | AccountError : Err
  | TimeSetError : Err
  | ValueError : Err
  | TypeErrorNone : Err
deriving DecidableEq, Repr

/-! ## Free functions of `account_sql.py` -/

/-- `verify_time(start_time, end_time)`: parse both timestamps (raising
`ValueError` on failure) and return
`(end_time > start_time, end_time > now > start_time)`; `datetime.now()`
is the explicit argument `now`. -/
def verify_time (now : DateTime) (start_time end_time : String) :
    Except Err (Bool × Bool) :=
  match strptime start_time, strptime end_time with
  | some s, some e => .ok (DateTime.ltb s e, DateTime.ltb now e && DateTime.ltb s now)
  | _, _ => .error .ValueError

/-- The symbol set of the password regex and of `generate_key`. -/
def pwdSymbols : List Char := "!@#$%^&*()_+".toList

/-- Membership in the symbol class `[!@#$%^&*()_+]`. -/
def isPwdSymbol (c : Char) : Bool := pwdSymbols.contains c

/-- The codepoint ranges of the Unicode decimal-digit category Nd, which
is what `\d` matches in a Python `str` pattern; enumerated from CPython
3.11 (Unicode 14) by testing every codepoint against the compiled
pattern. -/
def ndRanges : List (Nat × Nat) :=
  [(48, 57), (1632, 1641), (1776, 1785), (1984, 1993), (2406, 2415),
   (2534, 2543), (2662, 2671), (2790, 2799), (2918, 2927), (3046, 3055),
   (3174, 3183), (3302, 3311), (3430, 3439), (3558, 3567), (3664, 3673),
   (3792, 3801), (3872, 3881), (4160, 4169), (4240, 4249), (6112, 6121),
   (6160, 6169), (6470, 6479), (6608, 6617), (6784, 6793), (6800, 6809),
   (6992, 7001), (7088, 7097), (7232, 7241), (7248, 7257), (42528, 42537),
   (43216, 43225), (43264, 43273), (43472, 43481), (43504, 43513),
   (43600, 43609), (44016, 44025), (65296, 65305), (66720, 66729),
   (68912, 68921), (69734, 69743), (69872, 69881), (69942, 69951),
   (70096, 70105), (70384, 70393), (70736, 70745), (70864, 70873),
   (71248, 71257), (71360, 71369), (71472, 71481), (71904, 71913),
   (72016, 72025), (72784, 72793), (73040, 73049), (73120, 73129),
   (92768, 92777), (92864, 92873), (93008, 93017), (120782, 120831),
   (123200, 123209), (123632, 123641), (125264, 125273), (130032, 130041)]

/-- `\d` of the password regex: any Unicode decimal digit (category Nd),
per Python `re` semantics for `str` patterns. -/
def reDigit (c : Char) : Bool :=
  ndRanges.any (fun r => r.1 ≤ c.toNat && c.toNat ≤ r.2)

/-- The character class `[a-zA-Z\d!@#$%^&*()_+]` of the password regex:
ASCII letters, Unicode decimal digits, and the fixed symbols. -/
def inClass (c : Char) : Bool := c.isAlpha || reDigit c || isPwdSymbol c

/-- A lookahead `(?=.*C)` evaluated at position 0: some character
satisfying `C` occurs before any newline (`.` does not match `\n`). -/
def lookahead (C : Char → Bool) : List Char → Bool
  | [] => false
  | c :: rest => if c = Char.ofNat 10 then false else C c || lookahead C rest

/-- Where `$` may match for `re.match`: at the end of the string, or just
before a newline that is the last character. -/
def tailOk : List Char → Bool
  | [] => true
  | [c] => c = Char.ofNat 10
  | _ => false

/-- The body `[a-zA-Z\d!@#$%^&*()_+]{8,}$` of the password regex, matched
from position 0 with `n` characters already consumed: consume the maximal
run of class characters, then require at least 8 consumed and `$` to hold
(the greedy run is equivalent to the backtracking semantics because no
shorter run can place `$` at an allowed position). -/
def classRun (n : Nat) : List Char → Bool
  | [] => decide (8 ≤ n)
  | c :: rest =>
    if inClass c then classRun (n + 1) rest
    else decide (8 ≤ n) && tailOk (c :: rest)

/-- `verify_password(password)`: `re.match` of
`^(?=.*\d)(?=.*[a-z])(?=.*[A-Z])(?=.*[!@#$%^&*()_+])[a-zA-Z\d!@#$%^&*()_+]{8,}$`,
decomposed into its four lookaheads and its anchored body. -/
def verify_password (password : String) : Bool :=
  let cs := password.toList
  lookahead reDigit cs && lookahead Char.isLower cs &&
  lookahead Char.isUpper cs && lookahead isPwdSymbol cs && classRun 0 cs

/-- The password-format predicate exactly as the spec's sentence states
it: at least 8 characters, at least one digit, one lowercase letter, one
uppercase letter, and one symbol of the fixed set — with no restriction
on the remaining characters. -/
def spec_strong_secret (s : String) : Bool :=
  decide (8 ≤ s.length) && s.toList.any Char.isDigit &&
  s.toList.any Char.isLower && s.toList.any Char.isUpper &&
  s.toList.any isPwdSymbol

/-! ## The `account` table -/

/-- One row of the `account` table, columns in schema order. -/
structure Row where
  user_id : Nat
  username : String
  password : String
  role : String
  start_time : String
  end_time : String
deriving DecidableEq, Repr

/-- The table state an `AccountSQL` connection sees: rows in rowid
(insertion) order, plus the AUTOINCREMENT counter for `user_id`. -/
structure AccountSQL where
  rows : List Row
  next_id : Nat
deriving DecidableEq, Repr

/-- A brand-new store: `_create_table_if_not_exits` has created the empty
`account` table and AUTOINCREMENT starts at 1. -/
def AccountSQL.fresh : AccountSQL := { rows := [], next_id := 1 }

/-- One executed `INSERT INTO account (username, password, role,
start_time, end_time) VALUES (?, ?, ?, ?, ?)`. -/
def AccountSQL.insert (db : AccountSQL)
    (username password role start_time end_time : String) : AccountSQL :=
  { rows := db.rows ++
      [{ user_id := db.next_id, username, password, role, start_time, end_time }],
    next_id := db.next_id + 1 }

/-- `check_username_exits(username)`:
`SELECT COUNT(username) FROM account WHERE username = ?` is nonzero. -/
def check_username_exits (db : AccountSQL) (username : String) : Bool :=
  db.rows.any (fun r => r.username == username)

/-- `SELECT COUNT(role) FROM account WHERE role = 'admin'`. -/
def count_admin (db : AccountSQL) : Nat :=
  db.rows.countP (fun r => r.role == "admin")

/-- `_init_admin_if_not_exits()`: if no admin-role row exists, insert the
default administrator with the digest of a generated 15-character key;
`admin_pwd` stands for the random `generate_key(15)` output. -/
def _init_admin_if_not_exits (get_hex_sha : String → String)
    (admin_pwd : String) (db : AccountSQL) : AccountSQL :=
  if count_admin db == 0 then
    db.insert "admin" (get_hex_sha admin_pwd) "admin"
      "2023-01-01 00:00:00" "2030-01-01 00:00:00"
  else db

/-- `AccountSQL.__init__`: connect, `_create_table_if_not_exits` (no
effect on the row model beyond making a fresh store possible), then
`_init_admin_if_not_exits`. -/
def AccountSQL.connect (get_hex_sha : String → String)
    (admin_pwd : String) (db : AccountSQL) : AccountSQL :=
  _init_admin_if_not_exits get_hex_sha admin_pwd db

/-- One tuple of a `create_accounts` batch:
`(username, password, role, start_time, end_time)` with the plaintext
secret in the `password` slot, as `account[0] .. account[4]`. -/
structure AccountInput where
  username : String
  password : String
  role : String
  start_time : String
  end_time : String
deriving DecidableEq, Repr

/-- The first `for` loop of `create_accounts`: for each tuple raise
`DuplicateValueError` if its username is already in the table, and
`TimeSetError` if `verify_time(start, end)[0]` is false (`verify_time`'s
own `ValueError` propagates). -/
def validate_batch (now : DateTime) (db : AccountSQL) :
    List AccountInput → Except Err Unit
  | [] => .ok ()
  | a :: rest =>
    if check_username_exits db a.username then .error .DuplicateValueError
    else
      match verify_time now a.start_time a.end_time with
      | .error e => .error e
      | .ok tb =>
        if tb.1 then validate_batch now db rest else .error .TimeSetError

/-- The second `for` loop of `create_accounts`: insert every tuple, each
hashing its secret independently. -/
def insert_batch (get_hex_sha : String → String) (db : AccountSQL) :
    List AccountInput → AccountSQL
  | [] => db
  | a :: rest =>
    insert_batch get_hex_sha
      (db.insert a.username (get_hex_sha a.password) a.role a.start_time a.end_time)
      rest

/-- The row that inserting tuple `a` under AUTOINCREMENT value `n`
produces. -/
def mkRow (get_hex_sha : String → String) (n : Nat) (a : AccountInput) : Row :=
  { user_id := n, username := a.username, password := get_hex_sha a.password,
    role := a.role, start_time := a.start_time, end_time := a.end_time }

/-- The rows a batch contributes when its inserts start at AUTOINCREMENT
value `n`. -/
def rowsFrom (get_hex_sha : String → String) (n : Nat) :
    List AccountInput → List Row
  | [] => []
  | a :: rest => mkRow get_hex_sha n a :: rowsFrom get_hex_sha (n + 1) rest

/-- `create_accounts(account_list)`: validate the whole batch first; only
when every tuple passes are the inserts executed. -/
def create_accounts (get_hex_sha : String → String) (now : DateTime)
    (db : AccountSQL) (account_list : List AccountInput) :
    Except Err Unit × AccountSQL :=
  match validate_batch now db account_list with
  | .error e => (.error e, db)
  | .ok _ => (.ok (), insert_batch get_hex_sha db account_list)

/-- `username_get_base_info(username)`:
`SELECT * FROM account WHERE username = ?` then `fetchone()`; the code
returns `item[0], item[1], item[3], item[4]`, i.e. in schema order
(user_id, username, role, start_time) — not the
(user_id, role, start_time, end_time) its docstring promises — and when
`fetchone()` returns `None`, `item[0]` raises `TypeError`. -/
def username_get_base_info (db : AccountSQL) (username : String) :
    Except Err (Nat × String × String × String) :=
  match db.rows.find? (fun r => r.username == username) with
  | some item => .ok (item.user_id, item.username, item.role, item.start_time)
  | none => .error .TypeErrorNone

/-- `verify_account(username, password)`: look up a row matching both the
username and the digest of the supplied password; on a miss, distinguish
`PasswordError` (the username alone matches a row) from `AccountError`
(it matches none). Pure `SELECT`s: the returned table is the input. -/
def verify_account (get_hex_sha : String → String) (db : AccountSQL)
    (username password : String) : Except Err Row × AccountSQL :=
  let pw := get_hex_sha password
  match db.rows.find? (fun r => r.username == username && r.password == pw) with
  | some full_export => (.ok full_export, db)
  | none =>
    match db.rows.find? (fun r => r.username == username) with
    | some _ => (.error .PasswordError, db)
    | none => (.error .AccountError, db)

/-- `change_password(username, old_pwd, new_pwd)`: gate on
`verify_account`. The Python handler is `except AccountError or
PasswordError:` — the expression `AccountError or PasswordError`
evaluates to the truthy class `AccountError`, so only `AccountError` is
caught and turned into `False`; a raised `PasswordError` propagates to
the caller. On success, overwrite the stored digest and return `True`. -/
def change_password (get_hex_sha : String → String) (db : AccountSQL)
    (username old_pwd new_pwd : String) : Except Err Bool × AccountSQL :=
  match (verify_account get_hex_sha db username old_pwd).1 with
  | .error .AccountError => (.ok false, db)
  | .error e => (.error e, db)
  | .ok _ =>
    (.ok true,
      { db with rows := db.rows.map fun r =>
          if r.username == username then { r with password := get_hex_sha new_pwd } else r })

/-- Truthiness of a text operand of sqlite `AND`: the operand is coerced
to its longest numeric prefix; for the digit-prefixed strings this
operation receives (timestamps), that is the value of the leading digit
run, true iff nonzero. -/
def sqliteTextTruthy (s : String) : Bool :=
  Nat.blt 0 ((s.toList.takeWhile Char.isDigit).foldl (fun n c => n * 10 + (c.toNat - 48)) 0)

/-- The value sqlite assigns to `start_time` in
`SET start_time = ?1 and end_time = ?2`: the expression
`?1 AND (end_time = ?2)` — a 0/1 truth value, stored as text under the
column's TEXT affinity. -/
def sqliteAnd (p : String) (q : Bool) : String :=
  if sqliteTextTruthy p && q then "1" else "0"

/-- `update_allow_time(username, start_time, end_time)`: require the
username to exist and `verify_time(start, end)[0]`; then execute
`UPDATE account SET start_time = ? and end_time = ? WHERE username = ?`,
which sqlite parses as the single assignment
`start_time := ?1 AND (end_time = ?2)` — `end_time` is never written. -/
def update_allow_time (now : DateTime) (db : AccountSQL)
    (username start_time end_time : String) : Except Err Unit × AccountSQL :=
  if check_username_exits db username then
    match verify_time now start_time end_time with
    | .error e => (.error e, db)
    | .ok tb =>
      if tb.1 then
        (.ok (),
          { db with rows := db.rows.map fun r =>
              if r.username == username then
                { r with start_time := sqliteAnd start_time (r.end_time == end_time) }
              else r })
      else (.error .TimeSetError, db)
  else (.error .AccountError, db)

/-! ## Concrete fixtures for closed evaluation theorems

The concrete theorems below instantiate the abstract `get_hex_sha`
parameter with the identity function, so a stored digest is the plaintext
secret itself; nothing in the store's logic distinguishes digests beyond
equality. -/

/-- A fixed "current instant" for the concrete theorems. -/
def now0 : DateTime := ⟨2023, 6, 1, 0, 0, 0⟩

/-- A store holding one student account whose stored digest (under the
identity instantiation of `get_hex_sha`) is `"oldpw"`. -/
def dbAlice : AccountSQL :=
  AccountSQL.fresh.insert "alice" "oldpw" "student"
    "2023-01-01 00:00:00" "2023-06-01 00:00:00"

/-- A store already holding an admin-role account. -/
def dbAdmin : AccountSQL :=
  AccountSQL.fresh.insert "admin" "secret" "admin"
    "2023-01-01 00:00:00" "2030-01-01 00:00:00"

/-- A single-tuple batch for the round-trip witness. -/
def inputBob : AccountInput :=
  ⟨"bob", "Secret1!", "teacher", "2023-01-01 00:00:00", "2023-12-01 00:00:00"⟩

/-- A batch whose second tuple repeats the first tuple's username. -/
def batchDup : List AccountInput :=
  [⟨"dup", "p1", "student", "2023-01-01 00:00:00", "2023-02-01 00:00:00"⟩,
   ⟨"dup", "p2", "student", "2023-01-01 00:00:00", "2023-02-01 00:00:00"⟩]

/-- C1: the spec says Change Password turns both verification failures
into a plain boolean `False`. The code's handler `except AccountError or
PasswordError:` catches only `AccountError`: with a wrong current secret
for the existing account `"alice"`, the call raises `PasswordError` to
the caller instead of returning `False` (the stored digest is unchanged,
and the account-not-found case does return `False`). -/
theorem change_password_swallows_errors_bug :
    (change_password (fun s => s) dbAlice "alice" "wrong" "newpw").1 =
      .error .PasswordError ∧
    (change_password (fun s => s) dbAlice "alice" "wrong" "newpw").2 = dbAlice ∧
    (change_password (fun s => s) dbAlice "nobody" "wrong" "newpw").1 = .ok false :=
  ⟨rfl, rfl, rfl⟩

/-- C2: the spec says a batch whose second tuple duplicates the first
tuple's username is rejected whole. The validation loop checks each
username only against the table (`check_username_exits`), never against
the earlier tuples of the same batch, so on a fresh store the duplicate
batch passes validation and both rows are persisted: the call returns
normally and two rows with username `"dup"` exist afterwards. -/
theorem create_accounts_intra_batch_duplicate_bug :
    (create_accounts (fun s => s) now0 AccountSQL.fresh batchDup).1 = .ok () ∧
    ((create_accounts (fun s => s) now0 AccountSQL.fresh batchDup).2.rows.countP
      (fun r => r.username == "dup")) = 2 :=
  ⟨rfl, rfl⟩

/-- C3: the spec says Update Allow-Window overwrites both timestamp
fields with the supplied values. The statement
`UPDATE account SET start_time = ? and end_time = ? WHERE username = ?`
is parsed by sqlite as the single assignment
`start_time := ?1 AND (end_time = ?2)`: for the existing account
`"alice"` and the valid window 2024-01-01 .. 2024-06-01 the call reports
success, but `start_time` becomes the truth value `"0"` and `end_time`
keeps its old value. -/
theorem update_allow_time_set_conflation_bug :
    (update_allow_time now0 dbAlice "alice"
        "2024-01-01 00:00:00" "2024-06-01 00:00:00").1 = .ok () ∧
    (update_allow_time now0 dbAlice "alice"
        "2024-01-01 00:00:00" "2024-06-01 00:00:00").2.rows =
      [{ user_id := 1, username := "alice", password := "oldpw", role := "student",
         start_time := "0", end_time := "2023-06-01 00:00:00" }] :=
  ⟨rfl, rfl⟩

/-- C4: the spec (and the function's own docstring) promise
(identifier, role, start time, end time) and a "not found" signal. The
code returns `item[0], item[1], item[3], item[4]` — skipping nothing for
the password column — i.e. (user_id, username, role, start_time), and on
a missing username `fetchone()` yields `None`, so `item[0]` raises
`TypeError` rather than an account-not-found condition: for `dbAlice` it
returns `(1, "alice", "student", start)` where the docstring promises
`(1, "student", start, end)`. -/
theorem username_get_base_info_wrong_columns_bug :
    username_get_base_info dbAlice "alice" =
      .ok (1, "alice", "student", "2023-01-01 00:00:00") ∧
    username_get_base_info dbAlice "nobody" = .error .TypeErrorNone :=
  ⟨rfl, rfl⟩

/-- C10: Verify Credentials never modifies the table: whichever of its
three exits is taken, the table component of the result is the input
table. -/
theorem verify_account_readonly (get_hex_sha : String → String)
    (db : AccountSQL) (u p : String) :
    (verify_account get_hex_sha db u p).2 = db := by
  simp only [verify_account]
  split
  · rfl
  · split <;> rfl

/-- C9: store initialization is idempotent for the bootstrap admin:
initializing a brand-new store twice (with whatever keys the generator
produced) leaves exactly one admin-role row, and the synthesis step is a
no-op on any store that already has an admin-role account. -/
theorem init_admin_idempotent (get_hex_sha : String → String) (p1 p2 : String) :
    count_admin (AccountSQL.connect get_hex_sha p2
      (AccountSQL.connect get_hex_sha p1 AccountSQL.fresh)) = 1 ∧
    (∀ (db : AccountSQL) (p : String), count_admin db ≠ 0 →
      _init_admin_if_not_exits get_hex_sha p db = db) := by
  refine ⟨rfl, fun db p h => ?_⟩
  unfold _init_admin_if_not_exits
  rw [if_neg]
  simpa using h

/-- Witness for `init_admin_idempotent`: the double initialization from a
fresh store with two concrete keys, and the no-op on a store that already
has an admin account. -/
theorem init_admin_idempotent_witness :
    count_admin (AccountSQL.connect (fun s => s) "key2"
      (AccountSQL.connect (fun s => s) "key1" AccountSQL.fresh)) = 1 ∧
    _init_admin_if_not_exits (fun s => s) "key3" dbAdmin = dbAdmin :=
  ⟨(init_admin_idempotent (fun s => s) "key1" "key2").1,
   (init_admin_idempotent (fun s => s) "key1" "key2").2 dbAdmin "key3" (by decide)⟩

/-- C5: Verify Credentials makes a three-way distinction: if a stored row
matches the username and the digest of the secret, such a row is
returned; if a row matches the username but none matches the digest as
well, `PasswordError` is raised (not `AccountError`); if no row matches
the username, `AccountError` is raised. -/
theorem verify_account_three_way (get_hex_sha : String → String)
    (db : AccountSQL) (u p : String) :
    ((∃ r ∈ db.rows, r.username = u ∧ r.password = get_hex_sha p) →
      ∃ row, (verify_account get_hex_sha db u p).1 = .ok row ∧ row ∈ db.rows ∧
        row.username = u ∧ row.password = get_hex_sha p) ∧
    ((∃ r ∈ db.rows, r.username = u) →
      (∀ r ∈ db.rows, r.username = u → r.password ≠ get_hex_sha p) →
      (verify_account get_hex_sha db u p).1 = .error .PasswordError) ∧
    ((∀ r ∈ db.rows, r.username ≠ u) →
      (verify_account get_hex_sha db u p).1 = .error .AccountError) := by
  refine ⟨?_, ?_, ?_⟩
  · rintro ⟨r, hr, hu, hp⟩
    have hsome : (db.rows.find?
        (fun r => r.username == u && r.password == get_hex_sha p)).isSome := by
      rw [List.find?_isSome]
      exact ⟨r, hr, by simp [hu, hp]⟩
    obtain ⟨row, hrow⟩ := Option.isSome_iff_exists.mp hsome
    have hprops := List.find?_some hrow
    simp only [Bool.and_eq_true, beq_iff_eq] at hprops
    refine ⟨row, ?_, List.mem_of_find?_eq_some hrow, hprops.1, hprops.2⟩
    simp only [verify_account]
    rw [hrow]
  · rintro ⟨r, hr, hu⟩ hall
    have hnone : db.rows.find?
        (fun r => r.username == u && r.password == get_hex_sha p) = none := by
      rw [List.find?_eq_none]
      intro x hx
      simp only [Bool.and_eq_true, beq_iff_eq, not_and]
      exact fun hxu => hall x hx hxu
    have hsome : (db.rows.find? (fun r => r.username == u)).isSome := by
      rw [List.find?_isSome]
      exact ⟨r, hr, by simp [hu]⟩
    obtain ⟨row, hrow⟩ := Option.isSome_iff_exists.mp hsome
    simp only [verify_account]
    rw [hnone, hrow]
  · intro hall
    have hnone1 : db.rows.find?
        (fun r => r.username == u && r.password == get_hex_sha p) = none := by
      rw [List.find?_eq_none]
      intro x hx
      simp [hall x hx]
    have hnone2 : db.rows.find? (fun r => r.username == u) = none := by
      rw [List.find?_eq_none]
      intro x hx
      simp [hall x hx]
    simp only [verify_account]
    rw [hnone1, hnone2]

/-- Witness for `verify_account_three_way` on the concrete store
`dbAlice`: right secret returns the row, wrong secret for the existing
username raises `PasswordError`, unknown username raises
`AccountError`. -/
theorem verify_account_three_way_witness :
    (∃ row, (verify_account (fun s => s) dbAlice "alice" "oldpw").1 = .ok row ∧
      row ∈ dbAlice.rows ∧ row.username = "alice" ∧ row.password = "oldpw") ∧
    (verify_account (fun s => s) dbAlice "alice" "wrong").1 =
      .error .PasswordError ∧
    (verify_account (fun s => s) dbAlice "nobody" "pw").1 =
      .error .AccountError := by
  refine ⟨?_, ?_, ?_⟩
  · exact (verify_account_three_way (fun s => s) dbAlice "alice" "oldpw").1
      ⟨{ user_id := 1, username := "alice", password := "oldpw", role := "student",
         start_time := "2023-01-01 00:00:00", end_time := "2023-06-01 00:00:00" },
       by decide, rfl, rfl⟩
  · exact (verify_account_three_way (fun s => s) dbAlice "alice" "wrong").2.1
      ⟨{ user_id := 1, username := "alice", password := "oldpw", role := "student",
         start_time := "2023-01-01 00:00:00", end_time := "2023-06-01 00:00:00" },
       by decide, rfl⟩
      (by decide)
  · exact (verify_account_three_way (fun s => s) dbAlice "nobody" "pw").2.2
      (by decide)

/-- The only exceptions the validation loop can raise are
`DuplicateValueError`, `TimeSetError` and the `ValueError` propagating
out of `verify_time`. -/
theorem validate_batch_error_kinds (now : DateTime) (db : AccountSQL)
    (l : List AccountInput) (err : Err)
    (h : validate_batch now db l = .error err) :
    err = .DuplicateValueError ∨ err = .TimeSetError ∨ err = .ValueError := by
  induction l with
  | nil => simp [validate_batch] at h
  | cons a rest ih =>
    by_cases hdup : check_username_exits db a.username
    · simp [validate_batch, hdup] at h
      simp [← h]
    · cases hvt : verify_time now a.start_time a.end_time with
      | error e =>
        have he : e = Err.ValueError := by
          unfold verify_time at hvt
          split at hvt
          · cases hvt
          · cases hvt; rfl
        simp [validate_batch, hdup, hvt] at h
        simp [← h, he]
      | ok tb =>
        by_cases hb : tb.1
        · simp [validate_batch, hdup, hvt, hb] at h
          exact ih h
        · simp [validate_batch, hdup, hvt, hb] at h
          simp [← h]

/-- If some tuple of the batch is invalid — its username is already in
the table, or its window parses with end not after start — then the first
`for` loop of `create_accounts` raises before any insert runs. -/
theorem validate_batch_failure (now : DateTime) (db : AccountSQL)
    (l : List AccountInput)
    (h : ∃ a ∈ l, check_username_exits db a.username = true ∨
      ∃ s e, strptime a.start_time = some s ∧ strptime a.end_time = some e ∧
        DateTime.ltb s e = false) :
    ∃ err, validate_batch now db l = .error err := by
  induction l with
  | nil => simp at h
  | cons a rest ih =>
    by_cases hdup : check_username_exits db a.username
    · exact ⟨.DuplicateValueError, by simp [validate_batch, hdup]⟩
    · cases hvt : verify_time now a.start_time a.end_time with
      | error e => exact ⟨e, by simp [validate_batch, hdup, hvt]⟩
      | ok tb =>
        by_cases hb : tb.1
        · have hrest : ∃ a ∈ rest, check_username_exits db a.username = true ∨
              ∃ s e, strptime a.start_time = some s ∧ strptime a.end_time = some e ∧
                DateTime.ltb s e = false := by
            rcases h with ⟨x, hx, hbad⟩
            rcases List.mem_cons.mp hx with rfl | hx'
            · exfalso
              rcases hbad with hd | ⟨s, e, hs, he, hlt⟩
              · exact hdup hd
              · unfold verify_time at hvt
                rw [hs, he] at hvt
                cases hvt
                simp only [] at hb
                rw [hb] at hlt
                cases hlt
            · exact ⟨x, hx', hbad⟩
          obtain ⟨err, herr⟩ := ih hrest
          exact ⟨err, by simp [validate_batch, hdup, hvt, hb, herr]⟩
        · exact ⟨.TimeSetError, by simp [validate_batch, hdup, hvt, hb]⟩

/-- C6: when some tuple of the batch has a window with end not strictly
after start, or a username already present in the store, the whole
`create_accounts` call signals a batch-validation error (duplicate-value,
time-set, or the propagated timestamp parse error raised on some earlier
tuple) and the table is exactly the input table: no tuple of the batch is
persisted. -/
theorem create_accounts_all_or_nothing (get_hex_sha : String → String)
    (now : DateTime) (db : AccountSQL) (batch : List AccountInput)
    (h : ∃ a ∈ batch, check_username_exits db a.username = true ∨
      ∃ s e, strptime a.start_time = some s ∧ strptime a.end_time = some e ∧
        DateTime.ltb s e = false) :
    ∃ err, create_accounts get_hex_sha now db batch = (.error err, db) ∧
      (err = .DuplicateValueError ∨ err = .TimeSetError ∨ err = .ValueError) := by
  obtain ⟨err, herr⟩ := validate_batch_failure now db batch h
  exact ⟨err, by simp [create_accounts, herr],
    validate_batch_error_kinds now db batch err herr⟩

/-- Witness for `create_accounts_all_or_nothing`: the spec's test vector,
a single tuple whose end `"2023-04-17 00:00:00"` precedes its start
`"2023-05-17 00:00:00"`, against the store `dbAlice`. -/
theorem create_accounts_all_or_nothing_witness :
    ∃ err, create_accounts (fun s => s) now0 dbAlice
        [⟨"bob", "pw", "student", "2023-05-17 00:00:00", "2023-04-17 00:00:00"⟩] =
        (.error err, dbAlice) ∧
      (err = .DuplicateValueError ∨ err = .TimeSetError ∨ err = .ValueError) :=
  create_accounts_all_or_nothing (fun s => s) now0 dbAlice
    [⟨"bob", "pw", "student", "2023-05-17 00:00:00", "2023-04-17 00:00:00"⟩]
    ⟨⟨"bob", "pw", "student", "2023-05-17 00:00:00", "2023-04-17 00:00:00"⟩,
      by decide,
      Or.inr ⟨⟨2023, 5, 17, 0, 0, 0⟩, ⟨2023, 4, 17, 0, 0, 0⟩, rfl, rfl, rfl⟩⟩


/-- A lookahead scanned over a class-only body (possibly followed by the
single trailing newline the anchor tolerates) finds exactly the
characters of the body: the class contains no newline, so the scan never
stops early. -/
theorem lookahead_eq_any (C : Char → Bool) (body tail : List Char)
    (hb : ∀ c ∈ body, inClass c = true)
    (ht : tail = [] ∨ tail = [Char.ofNat 10]) :
    lookahead C (body ++ tail) = body.any C := by
  induction body with
  | nil =>
    rcases ht with rfl | rfl
    · rfl
    · simp [lookahead]
  | cons c rest ih =>
    have hc : inClass c = true := hb c (List.mem_cons_self c rest)
    have hcn : ¬c = Char.ofNat 10 := by
      intro h
      rw [h] at hc
      exact absurd hc (by decide)
    simp [lookahead, hcn, ih (fun x hx => hb x (List.mem_cons_of_mem c hx))]

/-- Characterization of the anchored body `[class]{8,}$`: starting with
`n` characters already consumed it matches exactly when the input splits
into a class-only body of total length at least 8 followed by a tail that
is empty or a single newline. -/
theorem classRun_eq (cs : List Char) : ∀ n, (classRun n cs = true ↔
    ∃ body tail, cs = body ++ tail ∧ (∀ c ∈ body, inClass c = true) ∧
      (tail = [] ∨ tail = [Char.ofNat 10]) ∧ 8 ≤ n + body.length) := by
  induction cs with
  | nil =>
    intro n
    simp only [classRun, decide_eq_true_eq]
    constructor
    · intro h
      exact ⟨[], [], rfl, by simp, Or.inl rfl, by simpa⟩
    · rintro ⟨body, tail, heq, -, -, hlen⟩
      have hbody : body = [] := by
        cases body with
        | nil => rfl
        | cons b body' => simp at heq
      rw [hbody] at hlen
      simpa using hlen
  | cons c rest ih =>
    intro n
    cases hc : inClass c with
    | true =>
      rw [classRun, hc]
      simp only [if_true]
      rw [ih (n + 1)]
      constructor
      · rintro ⟨body, tail, heq, hb, ht, hlen⟩
        refine ⟨c :: body, tail, by simp [heq], ?_, ht, ?_⟩
        · intro x hx
          rcases List.mem_cons.mp hx with rfl | hx'
          · exact hc
          · exact hb x hx'
        · simp only [List.length_cons]
          omega
      · rintro ⟨body, tail, heq, hb, ht, hlen⟩
        cases body with
        | nil =>
          exfalso
          rcases ht with rfl | rfl
          · simp at heq
          · obtain ⟨hcn, -⟩ : c = Char.ofNat 10 ∧ rest = [] := by simpa using heq
            rw [hcn] at hc
            exact absurd hc (by decide)
        | cons b body' =>
          obtain ⟨rfl, hrest⟩ : c = b ∧ rest = body' ++ tail := by simpa using heq
          refine ⟨body', tail, hrest, fun x hx => hb x (List.mem_cons_of_mem _ hx), ht, ?_⟩
          simp only [List.length_cons] at hlen
          omega
    | false =>
      rw [classRun, hc]
      simp only [Bool.false_eq_true, if_false, Bool.and_eq_true, decide_eq_true_eq]
      constructor
      · rintro ⟨hn, htail⟩
        have hform : rest = [] ∧ c = Char.ofNat 10 := by
          cases rest with
          | nil =>
            refine ⟨rfl, ?_⟩
            simpa [tailOk] using htail
          | cons d rest' => simp [tailOk] at htail
        refine ⟨[], [Char.ofNat 10], ?_, by simp, Or.inr rfl, by simpa⟩
        simp [hform.1, hform.2]
      · rintro ⟨body, tail, heq, hb, ht, hlen⟩
        cases body with
        | cons b body' =>
          exfalso
          obtain ⟨rfl, -⟩ : c = b ∧ rest = body' ++ tail := by simpa using heq
          rw [hb c (List.mem_cons_self c body')] at hc
          cases hc
        | nil =>
          rcases ht with rfl | rfl
          · simp at heq
          · obtain ⟨rfl, rfl⟩ : c = Char.ofNat 10 ∧ rest = [] := by simpa using heq
            exact ⟨by simpa using hlen, by simp [tailOk]⟩

/-- C7 (amended): `verify_password` returns true iff the secret splits
into a body of at least 8 characters all drawn from the regex's own
class — ASCII letters, Unicode decimal digits, and the symbols
`! @ # $ % ^ & * ( ) _ +` — followed by nothing or by the single trailing
newline the `$` anchor tolerates, such that the body contains at least
one Unicode decimal digit, one lowercase ASCII letter, one uppercase
ASCII letter, and one symbol of the set. (The original claim omitted the
every-character-from-the-class restriction.) -/
theorem verify_password_characterization (s : String) :
    verify_password s = true ↔
    ∃ body tail, s.toList = body ++ tail ∧
      (tail = [] ∨ tail = [Char.ofNat 10]) ∧
      8 ≤ body.length ∧ (∀ c ∈ body, inClass c = true) ∧
      (∃ c ∈ body, reDigit c = true) ∧ (∃ c ∈ body, c.isLower = true) ∧
      (∃ c ∈ body, c.isUpper = true) ∧ (∃ c ∈ body, isPwdSymbol c = true) := by
  unfold verify_password
  simp only [Bool.and_eq_true]
  constructor
  · rintro ⟨⟨⟨⟨hd, hl⟩, hu⟩, hsym⟩, hrun⟩
    obtain ⟨body, tail, heq, hb, ht, hlen⟩ := (classRun_eq s.toList 0).mp hrun
    rw [heq, lookahead_eq_any _ _ _ hb ht] at hd hl hu hsym
    exact ⟨body, tail, heq, ht, by simpa using hlen, hb,
      List.any_eq_true.mp hd, List.any_eq_true.mp hl, List.any_eq_true.mp hu,
      List.any_eq_true.mp hsym⟩
  · rintro ⟨body, tail, heq, ht, hlen, hb, hd, hl, hu, hsym⟩
    rw [heq]
    refine ⟨⟨⟨⟨?_, ?_⟩, ?_⟩, ?_⟩, ?_⟩
    · rw [lookahead_eq_any _ _ _ hb ht]
      exact List.any_eq_true.mpr hd
    · rw [lookahead_eq_any _ _ _ hb ht]
      exact List.any_eq_true.mpr hl
    · rw [lookahead_eq_any _ _ _ hb ht]
      exact List.any_eq_true.mpr hu
    · rw [lookahead_eq_any _ _ _ hb ht]
      exact List.any_eq_true.mpr hsym
    · exact (classRun_eq (body ++ tail) 0).mpr ⟨body, tail, rfl, hb, ht, by simpa⟩

/-- C7 counterexample: `"Passw0rd! "` (with a trailing space) satisfies
every condition of the claim's iff — 10 characters with a digit, a
lowercase letter, an uppercase letter and a symbol of the set — yet
`verify_password` rejects it, because the regex additionally requires
every character to belong to its class and a space does not. -/
theorem verify_password_spec_counterexample :
    spec_strong_secret "Passw0rd! " = true ∧
    verify_password "Passw0rd! " = false :=
  ⟨rfl, rfl⟩

/-- Executing the insert loop appends exactly the batch's rows, ids
running from the table's AUTOINCREMENT counter. -/
theorem insert_batch_rows (get_hex_sha : String → String) :
    ∀ (l : List AccountInput) (db : AccountSQL),
    (insert_batch get_hex_sha db l).rows =
      db.rows ++ rowsFrom get_hex_sha db.next_id l := by
  intro l
  induction l with
  | nil =>
    intro db
    simp [insert_batch, rowsFrom]
  | cons a rest ih =>
    intro db
    rw [insert_batch, ih]
    simp [AccountSQL.insert, rowsFrom, mkRow]

/-- In the rows a batch contributes, the lookup by a tuple's username and
hashed secret finds a row carrying exactly that tuple's fields, provided
no distinct tuple of the batch shares its username. -/
theorem rowsFrom_find_self (get_hex_sha : String → String) (a : AccountInput) :
    ∀ (l : List AccountInput) (n : Nat), a ∈ l →
    (∀ b ∈ l, b.username = a.username → b = a) →
    ∃ k, (rowsFrom get_hex_sha n l).find?
        (fun r => r.username == a.username &&
          r.password == get_hex_sha a.password) =
      some (mkRow get_hex_sha k a) := by
  intro l
  induction l with
  | nil =>
    intro n h
    simp at h
  | cons b rest ih =>
    intro n hmem huniq
    by_cases hbu : b.username = a.username
    · have hba : b = a := huniq b (List.mem_cons_self b rest) hbu
      subst hba
      refine ⟨n, ?_⟩
      rw [rowsFrom]
      apply List.find?_cons_of_pos
      simp [mkRow]
    · have hmem' : a ∈ rest := by
        rcases List.mem_cons.mp hmem with rfl | h'
        · exact absurd rfl hbu
        · exact h'
      obtain ⟨k, hk⟩ :=
        ih (n + 1) hmem' (fun x hx => huniq x (List.mem_cons_of_mem b hx))
      refine ⟨k, ?_⟩
      rw [rowsFrom, List.find?_cons_of_neg]
      · exact hk
      · simp [mkRow, hbu]

/-- In the rows a batch contributes, a lookup by a tuple's username but a
different digest finds nothing, provided no distinct tuple of the batch
shares that username. -/
theorem rowsFrom_find_other (get_hex_sha : String → String) (a : AccountInput)
    (p' : String) (hne : get_hex_sha p' ≠ get_hex_sha a.password) :
    ∀ (l : List AccountInput) (n : Nat),
    (∀ b ∈ l, b.username = a.username → b = a) →
    (rowsFrom get_hex_sha n l).find?
      (fun r => r.username == a.username && r.password == get_hex_sha p') =
      none := by
  intro l
  induction l with
  | nil =>
    intro n _
    rfl
  | cons b rest ih =>
    intro n huniq
    rw [rowsFrom, List.find?_cons_of_neg]
    · exact ih (n + 1) (fun x hx => huniq x (List.mem_cons_of_mem b hx))
    · simp only [mkRow, Bool.and_eq_true, beq_iff_eq]
      rintro ⟨hb1, hb2⟩
      have hba : b = a := huniq b (List.mem_cons_self b rest) hb1
      rw [hba] at hb2
      exact hne hb2.symm

/-- Every tuple of the batch leaves a row (with some id) among the rows
the batch contributes. -/
theorem mem_rowsFrom (get_hex_sha : String → String) (a : AccountInput) :
    ∀ (l : List AccountInput) (n : Nat), a ∈ l →
    ∃ k, mkRow get_hex_sha k a ∈ rowsFrom get_hex_sha n l := by
  intro l
  induction l with
  | nil =>
    intro n h
    simp at h
  | cons b rest ih =>
    intro n hmem
    rcases List.mem_cons.mp hmem with rfl | h'
    · exact ⟨n, List.mem_cons_self _ _⟩
    · obtain ⟨k, hk⟩ := ih (n + 1) h'
      exact ⟨k, List.mem_cons_of_mem _ hk⟩

/-- C8 (amended): after a successful `create_accounts` of a batch
containing tuple `a` — whose username is new to the store **and not
shared by any distinct tuple of the batch** — `verify_account` with
`a`'s username and secret returns a row carrying `a`'s username, digest,
role and window, while `verify_account` with the same username and any
secret whose digest differs raises `PasswordError`. The highlighted
proviso is the amendment: without it the statement is false of the code,
because batch validation never compares the tuples of a batch against
each other (see the counterexample below). -/
theorem create_then_verify_roundtrip (get_hex_sha : String → String)
    (now : DateTime) (db : AccountSQL) (batch : List AccountInput)
    (a : AccountInput) (hmem : a ∈ batch)
    (hfresh : ∀ r ∈ db.rows, r.username ≠ a.username)
    (huniq : ∀ b ∈ batch, b.username = a.username → b = a)
    (hok : (create_accounts get_hex_sha now db batch).1 = .ok ()) :
    (∃ row, (verify_account get_hex_sha
        (create_accounts get_hex_sha now db batch).2 a.username a.password).1 =
          .ok row ∧
      row.username = a.username ∧ row.password = get_hex_sha a.password ∧
      row.role = a.role ∧ row.start_time = a.start_time ∧
      row.end_time = a.end_time) ∧
    (∀ p', get_hex_sha p' ≠ get_hex_sha a.password →
      (verify_account get_hex_sha
        (create_accounts get_hex_sha now db batch).2 a.username p').1 =
        .error .PasswordError) := by
  cases hv : validate_batch now db batch with
  | error e =>
    simp [create_accounts, hv] at hok
  | ok u =>
    have hrows : (create_accounts get_hex_sha now db batch).2.rows =
        db.rows ++ rowsFrom get_hex_sha db.next_id batch := by
      have hdb2 : (create_accounts get_hex_sha now db batch).2 =
          insert_batch get_hex_sha db batch := by
        simp [create_accounts, hv]
      rw [hdb2, insert_batch_rows]
    constructor
    · obtain ⟨k, hk⟩ := rowsFrom_find_self get_hex_sha a batch db.next_id hmem huniq
      have hn1 : db.rows.find?
          (fun r => r.username == a.username &&
            r.password == get_hex_sha a.password) = none := by
        rw [List.find?_eq_none]
        intro r hr
        simp only [Bool.and_eq_true, beq_iff_eq]
        rintro ⟨hru, -⟩
        exact hfresh r hr hru
      refine ⟨mkRow get_hex_sha k a, ?_, rfl, rfl, rfl, rfl, rfl⟩
      simp only [verify_account]
      rw [hrows, List.find?_append, hn1, hk]
      rfl
    · intro p' hne
      have hn1 : db.rows.find?
          (fun r => r.username == a.username &&
            r.password == get_hex_sha p') = none := by
        rw [List.find?_eq_none]
        intro r hr
        simp only [Bool.and_eq_true, beq_iff_eq]
        rintro ⟨hru, -⟩
        exact hfresh r hr hru
      have hn2 := rowsFrom_find_other get_hex_sha a p' hne batch db.next_id huniq
      have hn3 : db.rows.find? (fun r => r.username == a.username) = none := by
        rw [List.find?_eq_none]
        intro r hr
        simp only [beq_iff_eq]
        exact hfresh r hr
      have hs4 : ((rowsFrom get_hex_sha db.next_id batch).find?
          (fun r => r.username == a.username)).isSome = true := by
        rw [List.find?_isSome]
        obtain ⟨k, hk⟩ := mem_rowsFrom get_hex_sha a batch db.next_id hmem
        exact ⟨mkRow get_hex_sha k a, hk, by simp [mkRow]⟩
      obtain ⟨row, hrow⟩ := Option.isSome_iff_exists.mp hs4
      simp only [verify_account]
      rw [hrows]
      simp only [List.find?_append]
      rw [hn1, hn2, hn3, hrow]
      rfl

/-- Witness for `create_then_verify_roundtrip`: creating `inputBob` on
the store `dbAlice` and verifying with the right and with a wrong
secret. -/
theorem create_then_verify_roundtrip_witness :
    (∃ row, (verify_account (fun s => s)
        (create_accounts (fun s => s) now0 dbAlice [inputBob]).2
        inputBob.username inputBob.password).1 = .ok row ∧
      row.username = inputBob.username ∧ row.password = inputBob.password ∧
      row.role = inputBob.role ∧ row.start_time = inputBob.start_time ∧
      row.end_time = inputBob.end_time) ∧
    (verify_account (fun s => s)
        (create_accounts (fun s => s) now0 dbAlice [inputBob]).2
        inputBob.username "other").1 = .error .PasswordError := by
  have h := create_then_verify_roundtrip (fun s => s) now0 dbAlice [inputBob]
    inputBob (by decide) (by decide) (by decide) rfl
  exact ⟨h.1, h.2 "other" (by decide)⟩

/-- C8 counterexample: the claim as stated is false of the code. On a
fresh store — which has no row for `"dup"` — the batch `batchDup`
persists successfully, and its first tuple `("dup", "p1", ...)` is a
tuple the claim quantifies over; `"p2"` is another secret whose digest
(under the identity instantiation of `get_hex_sha`) differs from that of
`"p1"`; yet `verify_account` with `("dup", "p2")` does not raise
`PasswordError` — it returns the row the duplicate second tuple
inserted. -/
theorem create_then_verify_roundtrip_counterexample :
    (create_accounts (fun s => s) now0 AccountSQL.fresh batchDup).1 = .ok () ∧
    (∀ r ∈ AccountSQL.fresh.rows, r.username ≠ "dup") ∧
    ("p2" : String) ≠ "p1" ∧
    (verify_account (fun s => s)
        (create_accounts (fun s => s) now0 AccountSQL.fresh batchDup).2
        "dup" "p2").1 =
      .ok { user_id := 2, username := "dup", password := "p2",
            role := "student", start_time := "2023-01-01 00:00:00",
            end_time := "2023-02-01 00:00:00" } :=
  ⟨rfl, by decide, by decide, rfl⟩
